import Mathlib

/-!
Verification of the Backstage catalog-react entity filters
(`src/plugins/catalog-react/src/filters.ts`).

The TypeScript classes are shallowly embedded as Lean structures with
executable `filterEntity` / `getCatalogFilters` / `toQueryValue`
functions.  JavaScript strings are modelled as Lean `String`
(logically a list of `Char`); `toLocaleUpperCase('en-US')` is modelled
as per-character uppercasing; `String.prototype.includes` as a
contiguous-sublist check; `split(/\s/)` as splitting on single
whitespace characters, keeping empty segments (they are then removed
by the `filter(Boolean)` step, exactly as in the source).

The entity-reference helpers (`parseEntityRef`, `stringifyEntityRef`)
and `getEntityRelations` are imported by the source from
`@backstage/catalog-model` and `./utils`, which are not part of the
given sources; they are modelled from the specification (sections 3,
4.1 and 4.2) and marked as such in their doc comments.
-/

namespace Backstage

/-! ## String helpers -/

/-- Per-character uppercasing, the model of `toLocaleUpperCase('en-US')`. -/
def strUpper (s : String) : String := String.mk (s.data.map Char.toUpper)

/-- Per-character lowercasing, used for canonical entity references. -/
def strLower (s : String) : String := String.mk (s.data.map Char.toLower)

/-- Does the character list start with the given pattern? -/
def segStartsWith : List Char → List Char → Bool
  | _, [] => true
  | [], _ :: _ => false
  | a :: as, b :: bs => a == b && segStartsWith as bs

/-- Does `hay` contain `needle` as a contiguous segment?
Model of `String.prototype.includes`. -/
def segContains : List Char → List Char → Bool
  | [], needle => needle.isEmpty
  | c :: rest, needle => segStartsWith (c :: rest) needle || segContains rest needle

/-- `strIncludes s w` models the JavaScript expression `s.includes(w)`. -/
def strIncludes (s w : String) : Bool := segContains s.data w.data

/-- The whitespace characters matched by the regular expression `/\s/`
(restricted to the ASCII range). -/
def isJsSpace (c : Char) : Bool :=
  c == ' ' || c == '\t' || c == '\n' || c == '\r' || c == '\x0b' || c == '\x0c'

/-- Split a character list at every whitespace character, keeping empty
segments, like `String.prototype.split(/\s/)`.  The first argument
accumulates the current segment in reverse. -/
def splitWsAux : List Char → List Char → List (List Char)
  | acc, [] => [acc.reverse]
  | acc, c :: cs =>
    if isJsSpace c then acc.reverse :: splitWsAux [] cs
    else splitWsAux (c :: acc) cs

/-- Model of `value.split(/\s/)`: split on single whitespace characters,
empty segments included. -/
def splitWs (s : String) : List String := (splitWsAux [] s.data).map String.mk

/-- The (non-empty) tokens obtained by splitting a text on whitespace. -/
def textTokens (value : String) : List String :=
  (splitWs value).filter (fun s => s != "")

/-! ## Entity data model (spec section 3) -/

/-- A typed directed edge from one entity to another. -/
structure Relation where
  type : String
  targetRef : String
deriving DecidableEq

/-- One element of `status.items`; only its presence matters to the filters. -/
structure EntityStatusItem where
  message : String
deriving DecidableEq

/-- The optional `status` field; `items` is itself optional. -/
structure EntityStatus where
  items : Option (List EntityStatusItem)
deriving DecidableEq

/-- The free-form `spec` mapping; only the fields the filters read. -/
structure EntitySpec where
  type : Option String
  lifecycle : Option String
deriving DecidableEq

/-- `metadata` of an entity.  `namespc` models the `namespace` field
(`namespace` is a reserved word in Lean); `annots` models the
`annotations` string-to-string mapping, as an association list. -/
structure EntityMetadata where
  name : String
  namespc : Option String
  title : Option String
  tags : Option (List String)
  annots : Option (List (String × String))
deriving DecidableEq

/-- A catalog entity, the read-only input of every filter. -/
structure Entity where
  metadata : EntityMetadata
  spec : Option EntitySpec
  relations : Option (List Relation)
  status : Option EntityStatus
deriving DecidableEq

/-! ## Entity reference normalizer (spec sections 3 and 4.1) -/

/-- A structured entity reference triple. -/
structure CompoundEntityRef where
  kind : String
  namespc : String
  name : String
deriving DecidableEq

/-- Characters allowed in a reference component (alphanumerics plus
dash, underscore and dot). -/
def validRefChar (c : Char) : Bool :=
  c.isAlphanum || c == '-' || c == '_' || c == '.'

/-- A reference component must be non-empty and contain only valid
characters. -/
def validRefPart (s : String) : Bool :=
  s != "" && s.data.all validRefChar

/-- Split a character list at the first occurrence of `sep`; `none` if
`sep` does not occur. -/
def breakOn (sep : Char) : List Char → Option (List Char × List Char)
  | [] => none
  | c :: rest =>
    if c == sep then some ([], rest)
    else match breakOn sep rest with
      | none => none
      | some (l, r) => some (c :: l, r)

/-- Modelled from the spec: `parseEntityRef` of `@backstage/catalog-model`
is not under `src/`.  Spec section 4.1: the input may be a bare name,
`namespace/name`, or a fully qualified `kind:namespace/name`; a missing
kind is filled with the default kind (parse failure when there is none),
a missing namespace with the well-known default namespace; a reference
with invalid characters or malformed structure signals a `ParseError`,
modelled as `none`. -/
def parseEntityRef (ref : String) (defaultKind : Option String) :
    Option CompoundEntityRef :=
  let (kindPart, rest) :=
    match breakOn ':' ref.data with
    | some (k, r) => (some (String.mk k), r)
    | none => (none, ref.data)
  let (nsPart, namePart) :=
    match breakOn '/' rest with
    | some (n, m) => (some (String.mk n), String.mk m)
    | none => (none, String.mk rest)
  match kindPart.orElse (fun _ => defaultKind) with
  | none => none
  | some kind =>
    let ns := nsPart.getD "default"
    if validRefPart kind && validRefPart ns && validRefPart namePart then
      some ⟨kind, ns, namePart⟩
    else none

/-- Modelled from the spec: `stringifyEntityRef` of
`@backstage/catalog-model` is not under `src/`.  Spec section 3: the
canonical string form is `kind:namespace/name`, and two references are
equivalent iff their canonical strings are equal, case-insensitively on
kind, namespace and name — realized by lowercasing all three
components. -/
def stringifyEntityRef (r : CompoundEntityRef) : String :=
  strLower r.kind ++ ":" ++ strLower r.namespc ++ "/" ++ strLower r.name

/-- The relation type used by the owner filter. -/
def RELATION_OWNED_BY : String := "ownedBy"

/-- Modelled from the spec: `getEntityRelations` of `./utils` is not
under `src/`.  Spec section 4.2: return the target reference of every
relation entry whose type matches exactly (case-sensitive), in original
order, as structured references; an absent relations list behaves as
empty, and there are no error cases (targets that are not canonical
references are dropped). -/
def getEntityRelations (entity : Entity) (relationType : String) :
    List CompoundEntityRef :=
  ((entity.relations.getD []).filter (fun r => r.type == relationType)).filterMap
    (fun r => parseEntityRef r.targetRef none)

/-! ## Filter value shapes -/

/-- The value of one key of a `getCatalogFilters()` record:
a single string or a sequence of strings. -/
inductive FilterValue where
  | single : String → FilterValue
  | multiple : List String → FilterValue
deriving DecidableEq

/-! ## Filter variants (filters.ts) -/

/-- `EntityKindFilter`: filter entities based on kind. -/
structure EntityKindFilter where
  value : String

def EntityKindFilter.getCatalogFilters (f : EntityKindFilter) :
    List (String × FilterValue) :=
  [("kind", FilterValue.single f.value)]

def EntityKindFilter.toQueryValue (f : EntityKindFilter) : String := f.value

/-- The `string | string[]` constructor argument of `EntityTypeFilter`. -/
inductive StrOrStrs where
  | str : String → StrOrStrs
  | strs : List String → StrOrStrs

/-- `EntityTypeFilter`: filters entities based on type. -/
structure EntityTypeFilter where
  value : StrOrStrs

/-- Simplify `string | string[]` for consumers, always returns an array. -/
def EntityTypeFilter.getTypes (f : EntityTypeFilter) : List String :=
  match f.value with
  | .strs l => l
  | .str s => [s]

def EntityTypeFilter.getCatalogFilters (f : EntityTypeFilter) :
    List (String × FilterValue) :=
  [("spec.type", FilterValue.multiple f.getTypes)]

def EntityTypeFilter.toQueryValue (f : EntityTypeFilter) : List String :=
  f.getTypes

/-- `EntityTagFilter`: filters entities based on tag. -/
structure EntityTagFilter where
  values : List String

/-- `this.values.every(v => (entity.metadata.tags ?? []).includes(v))` -/
def EntityTagFilter.filterEntity (f : EntityTagFilter) (entity : Entity) : Bool :=
  f.values.all (fun v => (entity.metadata.tags.getD []).contains v)

def EntityTagFilter.getCatalogFilters (f : EntityTagFilter) :
    List (String × FilterValue) :=
  [("metadata.tags", FilterValue.multiple f.values)]

def EntityTagFilter.toQueryValue (f : EntityTagFilter) : List String := f.values

/-- An element of the `Array<string | string[] | undefined>` argument of
`EntityTextFilter.toUpperArray`. -/
inductive StrVal where
  | str : String → StrVal
  | strs : List String → StrVal
  | undefined : StrVal

/-- `Array.prototype.flat()`: nested arrays are flattened one level,
plain strings and `undefined` pass through. -/
def flatVals : List StrVal → List (Option String)
  | [] => []
  | .str s :: rest => some s :: flatVals rest
  | .strs l :: rest => l.map some ++ flatVals rest
  | .undefined :: rest => none :: flatVals rest

/-- `.filter((m): m is string => Boolean(m))`: drops `undefined` and the
empty string (both are falsy). -/
def jsFilterBoolean : Option String → Option String
  | some s => if s == "" then none else some s
  | none => none

/-- `EntityTextFilter.toUpperArray`: flatten, keep the truthy strings,
uppercase them. -/
def toUpperArray (value : List StrVal) : List String :=
  ((flatVals value).filterMap jsFilterBoolean).map strUpper

/-- Lift an optional string into a `string | undefined` value. -/
def optStr : Option String → StrVal
  | some s => .str s
  | none => .undefined

/-- Lift an optional string list into a `string[] | undefined` value. -/
def optStrs : Option (List String) → StrVal
  | some l => .strs l
  | none => .undefined

/-- `EntityTextFilter`: filters entities where the text matches spec,
title or tags. -/
structure EntityTextFilter where
  value : String

/-- The loop body condition of `EntityTextFilter.filterEntity`, negated:
the word survives when it equals some tag exactly or is included in some
partial-match field. -/
def EntityTextFilter.filterEntity (f : EntityTextFilter) (entity : Entity) : Bool :=
  let words := toUpperArray ((splitWs f.value).map StrVal.str)
  let exactMatch := toUpperArray [optStrs entity.metadata.tags]
  let subMatch :=
    toUpperArray [StrVal.str entity.metadata.name, optStr entity.metadata.title]
  words.all (fun word =>
    !(exactMatch.all (fun m => m != word) &&
      subMatch.all (fun m => !(strIncludes m word))))

/-- The per-reference normalization done by the `EntityOwnerFilter`
constructor: `stringifyEntityRef(parseEntityRef(ref, { defaultKind: 'Group' }))`,
with a parse failure (the thrown error) as `none`. -/
def normalizeOwnerRef (ref : String) : Option String :=
  (parseEntityRef ref (some "Group")).map stringifyEntityRef

/-- `EntityOwnerFilter`: filter matching entities that are owned by group. -/
structure EntityOwnerFilter where
  values : List String

/-- The `EntityOwnerFilter` constructor: reduce over the raw references,
pushing each normalized reference and silently dropping the ones whose
parsing throws. -/
def EntityOwnerFilter.ofRaw (values : List String) : EntityOwnerFilter :=
  ⟨values.filterMap normalizeOwnerRef⟩

def EntityOwnerFilter.getCatalogFilters (f : EntityOwnerFilter) :
    List (String × FilterValue) :=
  [("relations.ownedBy", FilterValue.multiple f.values)]

/-- `this.values.some(v => getEntityRelations(entity, RELATION_OWNED_BY)
.some(o => stringifyEntityRef(o) === v))` -/
def EntityOwnerFilter.filterEntity (f : EntityOwnerFilter) (entity : Entity) : Bool :=
  f.values.any (fun v =>
    (getEntityRelations entity RELATION_OWNED_BY).any
      (fun o => stringifyEntityRef o == v))

def EntityOwnerFilter.toQueryValue (f : EntityOwnerFilter) : List String :=
  f.values

/-- `EntityLifecycleFilter`: filters entities on lifecycle. -/
structure EntityLifecycleFilter where
  values : List String

def EntityLifecycleFilter.getCatalogFilters (f : EntityLifecycleFilter) :
    List (String × FilterValue) :=
  [("spec.lifecycle", FilterValue.multiple f.values)]

/-- `this.values.some(v => entity.spec?.lifecycle === v)`: an absent
`spec` or `lifecycle` makes the strict equality false. -/
def EntityLifecycleFilter.filterEntity (f : EntityLifecycleFilter)
    (entity : Entity) : Bool :=
  f.values.any (fun v =>
    match entity.spec with
    | none => false
    | some sp =>
      match sp.lifecycle with
      | none => false
      | some l => l == v)

def EntityLifecycleFilter.toQueryValue (f : EntityLifecycleFilter) :
    List String :=
  f.values

/-- `EntityNamespaceFilter`: filters entities to those within the given
namespace(s). -/
structure EntityNamespaceFilter where
  values : List String

/-- Note: the source really emits the `spec.lifecycle` field path here. -/
def EntityNamespaceFilter.getCatalogFilters (f : EntityNamespaceFilter) :
    List (String × FilterValue) :=
  [("spec.lifecycle", FilterValue.multiple f.values)]

/-- `this.values.some(v => entity.metadata.namespace === v)` -/
def EntityNamespaceFilter.filterEntity (f : EntityNamespaceFilter)
    (entity : Entity) : Bool :=
  f.values.any (fun v =>
    match entity.metadata.namespc with
    | none => false
    | some ns => ns == v)

def EntityNamespaceFilter.toQueryValue (f : EntityNamespaceFilter) :
    List String :=
  f.values

/-- `UserListFilter`: filters entities based on whatever the user has
starred or owns them.  The two predicates are injected opaque pure
functions. -/
structure UserListFilter where
  value : String
  isOwnedEntity : Entity → Bool
  isStarredEntity : Entity → Bool

/-- The `switch (this.value)` dispatch. -/
def UserListFilter.filterEntity (f : UserListFilter) (entity : Entity) : Bool :=
  if f.value == "owned" then f.isOwnedEntity entity
  else if f.value == "starred" then f.isStarredEntity entity
  else true

def UserListFilter.toQueryValue (f : UserListFilter) : String := f.value

/-- `String(b)` / `b.toString()` on a JavaScript boolean. -/
def jsBoolString (b : Bool) : String := if b then "true" else "false"

/-- The annotation key read by the orphan filter. -/
def orphanAnnotationKey : String := "backstage.io/orphan"

/-- `EntityOrphanFilter`: filters entities based if it is an orphan or not. -/
structure EntityOrphanFilter where
  value : Bool

def EntityOrphanFilter.getCatalogFilters (f : EntityOrphanFilter) :
    List (String × FilterValue) :=
  [("metadata.annotations.backstage.io/orphan",
    FilterValue.single (jsBoolString f.value))]

/-- The JavaScript access `entity.metadata.annotations?.[key]`: `none`
both when the annotation mapping is absent and when the key is missing. -/
def entityAnnotation (entity : Entity) (key : String) : Option String :=
  match entity.metadata.annots with
  | none => none
  | some as => as.lookup key

/-- `const orphan = entity.metadata.annotations?.['backstage.io/orphan'];
return orphan !== undefined && this.value.toString() === orphan;` -/
def EntityOrphanFilter.filterEntity (f : EntityOrphanFilter) (entity : Entity) :
    Bool :=
  match entityAnnotation entity orphanAnnotationKey with
  | none => false
  | some orphan => jsBoolString f.value == orphan

/-- `EntityErrorFilter`: filters entities based on if it has errors or not. -/
structure EntityErrorFilter where
  value : Bool

/-- `const error = (entity?.status?.items?.length as number) > 0;
return error !== undefined && this.value === error;` — in JavaScript
`undefined > 0` is `false`, so `error` is always a defined boolean and
the `error !== undefined` guard is always true. -/
def EntityErrorFilter.filterEntity (f : EntityErrorFilter) (entity : Entity) :
    Bool :=
  let error :=
    match entity.status with
    | none => false
    | some st =>
      match st.items with
      | none => false
      | some items => decide (items.length > 0)
  f.value == error

/-! ## Sample entities -/

/-- A minimal entity: only the required name, every optional field absent. -/
def sampleEntity : Entity :=
  ⟨⟨"my-service", none, none, none, none⟩, none, none, none⟩

/-- An entity with one `ownedBy` relation targeting `group:default/team-a`. -/
def sampleOwnedEntity : Entity :=
  ⟨⟨"svc", none, none, none, none⟩, none,
    some [⟨"ownedBy", "group:default/team-a"⟩], none⟩

/-! ## The filter variants with a client-side predicate, as one type -/

/-- The filter variants that implement `filterEntity` by reading entity
fields (every variant except Kind and Type, which have no client-side
predicate, and UserList, which only delegates to injected predicates). -/
inductive StructFilter where
  | tag : List String → StructFilter
  | text : String → StructFilter
  | owner : List String → StructFilter
  | lifecycle : List String → StructFilter
  | nspace : List String → StructFilter
  | orphan : Bool → StructFilter
  | error : Bool → StructFilter

def StructFilter.filterEntity : StructFilter → Entity → Bool
  | .tag vs, e => (EntityTagFilter.mk vs).filterEntity e
  | .text v, e => (EntityTextFilter.mk v).filterEntity e
  | .owner vs, e => (EntityOwnerFilter.mk vs).filterEntity e
  | .lifecycle vs, e => (EntityLifecycleFilter.mk vs).filterEntity e
  | .nspace vs, e => (EntityNamespaceFilter.mk vs).filterEntity e
  | .orphan b, e => (EntityOrphanFilter.mk b).filterEntity e
  | .error b, e => (EntityErrorFilter.mk b).filterEntity e

/-- Replace every absent optional field by its empty default: absent
tags, relations and annotation maps become empty lists, an absent title
the empty string, an absent spec an empty spec, and an absent status
(or absent status items) an empty items list. -/
def totalizeEntity (e : Entity) : Entity :=
  ⟨⟨e.metadata.name, e.metadata.namespc, some (e.metadata.title.getD ""),
    some (e.metadata.tags.getD []), some (e.metadata.annots.getD [])⟩,
   some (e.spec.getD ⟨none, none⟩),
   some (e.relations.getD []),
   some ⟨some ((e.status.bind EntityStatus.items).getD [])⟩⟩

/-! ## Helper lemmas -/

theorem string_eq_empty_iff (s : String) : s = "" ↔ s.data = [] := by
  constructor
  · intro h; subst h; rfl
  · intro h
    apply String.ext
    rw [h]

theorem strUpper_eq_empty_iff (s : String) : strUpper s = "" ↔ s = "" := by
  rw [string_eq_empty_iff, strUpper]
  show (s.data.map Char.toUpper) = [] ↔ _
  rw [List.map_eq_nil_iff, string_eq_empty_iff]

theorem strIncludes_empty_left (w : String) (hw : w ≠ "") :
    strIncludes "" w = false := by
  rw [strIncludes]
  show segContains [] w.data = false
  rw [segContains, List.isEmpty_eq_false]
  intro h
  exact hw ((string_eq_empty_iff w).mpr h)

theorem flatVals_map_str (l : List String) :
    flatVals (l.map StrVal.str) = l.map some := by
  induction l with
  | nil => rfl
  | cons s t ih => simp [flatVals, ih]

theorem filterMap_jsFilterBoolean_map_some (l : List String) :
    (l.map some).filterMap jsFilterBoolean = l.filter (fun s => s != "") := by
  induction l with
  | nil => rfl
  | cons s t ih =>
    by_cases h : s = ""
    · subst h
      simp [List.filterMap_cons, List.filter_cons, jsFilterBoolean, ih]
    · simp [List.filterMap_cons, List.filter_cons, jsFilterBoolean, h, ih]

theorem toUpperArray_map_str (l : List String) :
    toUpperArray (l.map StrVal.str) =
      (l.filter (fun s => s != "")).map strUpper := by
  rw [toUpperArray, flatVals_map_str, filterMap_jsFilterBoolean_map_some]

theorem toUpperArray_optStrs (tags : Option (List String)) :
    toUpperArray [optStrs tags] =
      ((tags.getD []).filter (fun s => s != "")).map strUpper := by
  cases tags with
  | none => rfl
  | some l =>
    show toUpperArray [StrVal.strs l] = _
    rw [toUpperArray]
    have h1 : flatVals [StrVal.strs l] = l.map some := by
      simp [flatVals]
    rw [h1, filterMap_jsFilterBoolean_map_some]
    rfl

theorem toUpperArray_name_title (name : String) (title : Option String) :
    toUpperArray [StrVal.str name, optStr title] =
      ((name :: title.toList).filter (fun s => s != "")).map strUpper := by
  cases title with
  | none =>
    by_cases h : name = "" <;>
      simp [toUpperArray, flatVals, optStr, Option.toList, List.filterMap_cons,
        jsFilterBoolean, List.filter_cons, h]
  | some ti =>
    by_cases h : name = "" <;> by_cases h2 : ti = "" <;>
      simp [toUpperArray, flatVals, optStr, Option.toList, List.filterMap_cons,
        jsFilterBoolean, List.filter_cons, h, h2]

/-- Unfolding of `EntityTextFilter.filterEntity` into its loop shape. -/
theorem textFilter_unfold (f : EntityTextFilter) (e : Entity) :
    f.filterEntity e =
      (toUpperArray ((splitWs f.value).map StrVal.str)).all (fun word =>
        !((toUpperArray [optStrs e.metadata.tags]).all (fun m => m != word) &&
          (toUpperArray [StrVal.str e.metadata.name, optStr e.metadata.title]).all
            (fun m => !(strIncludes m word)))) := rfl

/-- The condition the text-filter loop checks for a single non-empty
token `w`: the negated fail-condition holds iff the uppercased token
equals some uppercased tag or is included in the uppercased name or
title. -/
theorem text_word_cond (e : Entity) (w : String) (hw : w ≠ "") :
    (!((toUpperArray [optStrs e.metadata.tags]).all (fun m => m != strUpper w) &&
       (toUpperArray [StrVal.str e.metadata.name, optStr e.metadata.title]).all
         (fun m => !(strIncludes m (strUpper w))))) = true ↔
      ((∃ t ∈ e.metadata.tags.getD [], strUpper w = strUpper t) ∨
       strIncludes (strUpper e.metadata.name) (strUpper w) = true ∨
       (∃ ti, e.metadata.title = some ti ∧
         strIncludes (strUpper ti) (strUpper w) = true)) := by
  have hwU : strUpper w ≠ "" := fun hh => hw ((strUpper_eq_empty_iff w).mp hh)
  rw [toUpperArray_optStrs, toUpperArray_name_title]
  rw [Bool.not_eq_true', Bool.and_eq_false_iff]
  constructor
  · rintro (h | h)
    · left
      rw [List.all_map, List.all_eq_false] at h
      obtain ⟨t, htf, hmw⟩ := h
      rw [List.mem_filter] at htf
      have heq : strUpper t = strUpper w := by
        by_contra hne
        exact hmw (bne_iff_ne.mpr hne)
      exact ⟨t, htf.1, heq.symm⟩
    · right
      rw [List.all_map, List.all_eq_false] at h
      obtain ⟨s, hsf, hmw⟩ := h
      rw [List.mem_filter, List.mem_cons] at hsf
      have hincl : strIncludes (strUpper s) (strUpper w) = true := by
        rcases hb : strIncludes (strUpper s) (strUpper w) with _ | _
        · exfalso
          apply hmw
          simp [Function.comp, hb]
        · rfl
      rcases hsf.1 with hname | htitle
      · subst hname; exact Or.inl hincl
      · exact Or.inr ⟨s, Option.mem_def.mp (Option.mem_toList.mp htitle), hincl⟩
  · rintro (⟨t, ht, heq⟩ | h | ⟨ti, hti, hincl⟩)
    · left
      rw [List.all_map, List.all_eq_false]
      have htne : t ≠ "" := by
        intro hh
        subst hh
        exact hwU (heq ▸ rfl)
      refine ⟨t, List.mem_filter.mpr ⟨ht, bne_iff_ne.mpr htne⟩, ?_⟩
      simp [Function.comp, bne_iff_ne, heq.symm]
    · right
      rw [List.all_map, List.all_eq_false]
      have hnne : e.metadata.name ≠ "" := by
        intro hh
        rw [hh] at h
        rw [show strUpper "" = "" from rfl, strIncludes_empty_left _ hwU] at h
        exact Bool.false_ne_true h
      refine ⟨e.metadata.name,
        List.mem_filter.mpr ⟨List.mem_cons_self _ _, bne_iff_ne.mpr hnne⟩, ?_⟩
      simp [Function.comp, h]
    · right
      rw [List.all_map, List.all_eq_false]
      have htine : ti ≠ "" := by
        intro hh
        rw [hh] at hincl
        rw [show strUpper "" = "" from rfl, strIncludes_empty_left _ hwU] at hincl
        exact Bool.false_ne_true hincl
      refine ⟨ti, List.mem_filter.mpr
        ⟨List.mem_cons_of_mem _ (Option.mem_toList.mpr (Option.mem_def.mpr hti)),
          bne_iff_ne.mpr htine⟩, ?_⟩
      simp [Function.comp, hincl]

/-- Shared characterization of `EntityTextFilter.filterEntity`: the
filter accepts iff every non-empty whitespace-separated token of the
configured text matches a tag exactly or is a substring of the name or
title, case-insensitively. -/
theorem textFilter_iff (f : EntityTextFilter) (e : Entity) :
    f.filterEntity e = true ↔
      ∀ w ∈ textTokens f.value,
        (∃ t ∈ e.metadata.tags.getD [], strUpper w = strUpper t) ∨
        strIncludes (strUpper e.metadata.name) (strUpper w) = true ∨
        (∃ ti, e.metadata.title = some ti ∧
          strIncludes (strUpper ti) (strUpper w) = true) := by
  rw [textFilter_unfold, toUpperArray_map_str]
  rw [show (splitWs f.value).filter (fun s => s != "") = textTokens f.value
    from rfl]
  rw [List.all_eq_true, List.forall_mem_map]
  constructor
  · intro h w hw
    have hne : w ≠ "" := bne_iff_ne.mp (List.mem_filter.mp hw).2
    exact (text_word_cond e w hne).mp (h w hw)
  · intro h w hw
    have hne : w ≠ "" := bne_iff_ne.mp (List.mem_filter.mp hw).2
    exact (text_word_cond e w hne).mpr (h w hw)

theorem splitWsAux_all_space (cs : List Char) (h : cs.all isJsSpace = true) :
    ∀ s ∈ splitWsAux [] cs, s = [] := by
  induction cs with
  | nil =>
    intro s hs
    simp [splitWsAux] at hs
    exact hs
  | cons c rest ih =>
    intro s hs
    rw [List.all_cons, Bool.and_eq_true] at h
    simp [splitWsAux, h.1] at hs
    rcases hs with h1 | h2
    · exact h1
    · exact ih h.2 s h2

theorem filter_ne_empty_of_all_nil (l : List (List Char))
    (h : ∀ s ∈ l, s = []) :
    (l.map String.mk).filter (fun s => s != "") = [] := by
  induction l with
  | nil => rfl
  | cons a t ih =>
    have ha : a = [] := h a (List.mem_cons_self a t)
    subst ha
    rw [List.map_cons, List.filter_cons, if_neg (by decide)]
    exact ih (fun s hs => h s (List.mem_cons_of_mem _ hs))

/-- An all-whitespace (or empty) text yields no tokens. -/
theorem textTokens_whitespace (v : String) (h : v.data.all isJsSpace = true) :
    textTokens v = [] := by
  rw [textTokens, splitWs]
  exact filter_ne_empty_of_all_nil _ (splitWsAux_all_space v.data h)

/-- Every field-reading filter variant treats an absent optional field
exactly like its empty default. -/
theorem structFilter_totalize (v : StructFilter) (e : Entity) :
    v.filterEntity e = v.filterEntity (totalizeEntity e) := by
  obtain ⟨⟨name, ns, title, tags, annots⟩, sp, rels, st⟩ := e
  cases v with
  | tag vs => cases tags <;> rfl
  | text tv =>
    show (EntityTextFilter.mk tv).filterEntity _ =
      (EntityTextFilter.mk tv).filterEntity _
    have h0 : (("" : String) != "") = false := by decide
    rw [textFilter_unfold, textFilter_unfold]
    cases tags <;> cases title <;>
      simp [totalizeEntity, toUpperArray_optStrs, toUpperArray_name_title,
        List.filter_cons, h0]
  | owner vs => cases rels <;> rfl
  | lifecycle vs => cases sp <;> rfl
  | nspace vs => rfl
  | orphan b => cases annots <;> rfl
  | error b =>
    cases st with
    | none => rfl
    | some stt =>
      cases stt with
      | mk items => cases items <;> rfl

/-! ## Claim theorems -/

/-- C1: `EntityTextFilter.filterEntity` returns true iff every token
obtained by splitting the configured text on whitespace either equals
(case-insensitively, via uppercasing) one of the entity's tags exactly,
or occurs as a case-insensitive substring of the entity's
`metadata.name` or `metadata.title` (AND across tokens); a token that
fails both checks against all candidate fields makes the whole match
false, so in particular a token that is only a proper substring of a
tag and not a substring of name or title does not match. -/
theorem text_filter_token_semantics (f : EntityTextFilter) (e : Entity) :
    f.filterEntity e = true ↔
      ∀ w ∈ textTokens f.value,
        (∃ t ∈ e.metadata.tags.getD [], strUpper w = strUpper t) ∨
        strIncludes (strUpper e.metadata.name) (strUpper w) = true ∨
        (∃ ti, e.metadata.title = some ti ∧
          strIncludes (strUpper ti) (strUpper w) = true) :=
  textFilter_iff f e

/-- C2: `EntityNamespaceFilter.getCatalogFilters` returns a mapping
whose single key is the field path `spec.lifecycle` mapped to the
configured values sequence (the known copy-paste defect of the source,
faithfully reproduced). -/
theorem namespace_filter_catalog_filters (vs : List String) :
    (EntityNamespaceFilter.mk vs).getCatalogFilters =
      [("spec.lifecycle", FilterValue.multiple vs)] := rfl

/-- C3: constructing an `EntityOwnerFilter` never fails: every raw
reference is normalized with default kind `Group`, unparseable
references are dropped entirely, and `toQueryValue()` returns exactly
the normalized forms of the parseable references in their original
order; in particular construction from
`["group:default/team-a", "!!!invalid!!!"]` yields exactly one entry. -/
theorem owner_filter_construction_policy (raw : List String) :
    ((EntityOwnerFilter.ofRaw raw).toQueryValue =
      (raw.filter (fun r => (parseEntityRef r (some "Group")).isSome)).map
        (fun r => stringifyEntityRef
          ((parseEntityRef r (some "Group")).getD ⟨"Group", "default", ""⟩))) ∧
    (EntityOwnerFilter.ofRaw ["group:default/team-a", "!!!invalid!!!"]).toQueryValue
      = ["group:default/team-a"] := by
  constructor
  · show raw.filterMap normalizeOwnerRef = _
    induction raw with
    | nil => rfl
    | cons r t ih =>
      cases hp : parseEntityRef r (some "Group") with
      | none =>
        simp [List.filterMap_cons, List.filter_cons, normalizeOwnerRef, hp, ih]
      | some c =>
        simp [List.filterMap_cons, List.filter_cons, normalizeOwnerRef, hp, ih]
  · decide

/-- C4: `EntityOwnerFilter.filterEntity` returns true iff some relation
of type `ownedBy` on the entity has a canonical target reference equal
to some configured normalized reference; in particular an entity with
an `ownedBy` relation targeting `group:default/team-a` is matched by an
owner filter constructed from `["team-a"]` (default kind Group). -/
theorem owner_filter_relation_match (f : EntityOwnerFilter) (e : Entity) :
    (f.filterEntity e = true ↔
      ∃ r ∈ e.relations.getD [], r.type = RELATION_OWNED_BY ∧
        ∃ o, parseEntityRef r.targetRef none = some o ∧
          stringifyEntityRef o ∈ f.values) ∧
    (EntityOwnerFilter.ofRaw ["team-a"]).filterEntity sampleOwnedEntity = true := by
  constructor
  · rw [EntityOwnerFilter.filterEntity, List.any_eq_true]
    simp only [List.any_eq_true, getEntityRelations, List.mem_filterMap,
      List.mem_filter, beq_iff_eq]
    constructor
    · rintro ⟨v, hv, o, ⟨r, ⟨hr, hrt⟩, hp⟩, heq⟩
      exact ⟨r, hr, hrt, o, hp, heq ▸ hv⟩
    · rintro ⟨r, hr, hrt, o, hp, ho⟩
      exact ⟨stringifyEntityRef o, ho, o, ⟨r, ⟨hr, hrt⟩, hp⟩, rfl⟩
  · decide

/-- C5: `EntityTagFilter.filterEntity` returns true iff the entity's
tag list (empty when absent) contains every configured tag (AND over
the configured tags, not OR). -/
theorem tag_filter_and_semantics (f : EntityTagFilter) (e : Entity) :
    f.filterEntity e = true ↔ ∀ v ∈ f.values, v ∈ e.metadata.tags.getD [] := by
  rw [EntityTagFilter.filterEntity, List.all_eq_true]
  constructor
  · intro h v hv
    exact List.elem_iff.mp (h v hv)
  · intro h v hv
    exact List.elem_iff.mpr (h v hv)

/-- C6: for every filter variant and every well-typed entity,
`filterEntity` evaluates to a boolean with every access to a
possibly-absent optional field (tags, title, annotations, relations,
spec, status) resolving absence to the empty default rather than to an
error: each field-reading variant decides exactly as it does on the
entity with the absent fields replaced by empty defaults, and the
UserList variant only ever delegates to one of its injected total
predicates or returns true. -/
theorem filters_resolve_absent_fields (v : StructFilter) (u : UserListFilter)
    (e : Entity) :
    v.filterEntity e = v.filterEntity (totalizeEntity e) ∧
    (u.filterEntity e = u.isOwnedEntity e ∨
     u.filterEntity e = u.isStarredEntity e ∨
     u.filterEntity e = true) := by
  refine ⟨structFilter_totalize v e, ?_⟩
  rw [UserListFilter.filterEntity]
  by_cases h1 : u.value == "owned"
  · rw [if_pos h1]
    exact Or.inl rfl
  · rw [if_neg h1]
    by_cases h2 : u.value == "starred"
    · rw [if_pos h2]
      exact Or.inr (Or.inl rfl)
    · rw [if_neg h2]
      exact Or.inr (Or.inr rfl)

/-- C7: an `EntityTextFilter` whose configured text is empty or
all-whitespace produces zero tokens, and its `filterEntity` returns
true for every entity (the for-all-tokens condition is vacuously
true). -/
theorem text_filter_vacuous_match (v : String) (e : Entity)
    (h : v.data.all isJsSpace = true) :
    textTokens v = [] ∧ (EntityTextFilter.mk v).filterEntity e = true := by
  have ht : textTokens v = [] := textTokens_whitespace v h
  refine ⟨ht, ?_⟩
  rw [textFilter_iff, ht]
  intro w hw
  cases hw

/-- Witness for C7: the empty text produces zero tokens and matches the
sample entity. -/
theorem text_filter_vacuous_match_witness :
    textTokens "" = [] ∧
    (EntityTextFilter.mk "").filterEntity sampleEntity = true :=
  text_filter_vacuous_match "" sampleEntity (by decide)

/-- C8: `EntityOrphanFilter.filterEntity` returns true iff the entity
carries the orphan annotation and its string value equals the
stringified configured boolean; an entity lacking the annotation is
never matched, whatever the configured boolean. -/
theorem orphan_filter_annotation_roundtrip (f : EntityOrphanFilter) (e : Entity) :
    f.filterEntity e = true ↔
      entityAnnotation e orphanAnnotationKey = some (jsBoolString f.value) := by
  cases h : entityAnnotation e orphanAnnotationKey with
  | none =>
    unfold EntityOrphanFilter.filterEntity
    rw [h]
    simp
  | some s =>
    unfold EntityOrphanFilter.filterEntity
    rw [h]
    show (jsBoolString f.value == s) = true ↔ _
    rw [beq_iff_eq, Option.some_inj]
    exact eq_comm

/-- C9: `EntityErrorFilter.filterEntity` returns true iff the
proposition "the entity has a non-empty status-items list" (false when
`status` or `status.items` is absent or empty) equals the configured
boolean. -/
theorem error_filter_nonempty_status (f : EntityErrorFilter) (e : Entity) :
    f.filterEntity e = true ↔
      ((e.status.bind EntityStatus.items).getD [] ≠ [] ↔ f.value = true) := by
  obtain ⟨b⟩ := f
  obtain ⟨md, sp, rels, st⟩ := e
  cases st with
  | none => cases b <;> simp [EntityErrorFilter.filterEntity]
  | some stt =>
    cases stt with
    | mk items =>
      cases items with
      | none => cases b <;> simp [EntityErrorFilter.filterEntity]
      | some l =>
        cases l with
        | nil => cases b <;> simp [EntityErrorFilter.filterEntity]
        | cons c t => cases b <;> simp [EntityErrorFilter.filterEntity]

/-- C10: empty-configuration edge case: an `EntityTagFilter` with no
configured values accepts every entity (universally-quantified check,
vacuously true), while `EntityOwnerFilter`, `EntityLifecycleFilter` and
`EntityNamespaceFilter` with no configured values reject every entity
(existentially-quantified checks, vacuously false). -/
theorem empty_configuration_edge_cases (e : Entity) :
    (EntityTagFilter.mk []).filterEntity e = true ∧
    (EntityOwnerFilter.ofRaw []).filterEntity e = false ∧
    (EntityLifecycleFilter.mk []).filterEntity e = false ∧
    (EntityNamespaceFilter.mk []).filterEntity e = false :=
  ⟨rfl, rfl, rfl, rfl⟩

end Backstage
